import Mathlib

/-!
Verification development for the javaspectre-edge excavation-and-scoring
pipeline.  The definitions below are a shallow embedding of the JavaScript
source:

* `VirtualObjectExcavator` / `walkValue` / `excavate`  — src/core/VirtualObjectExcavator.js
* `ExcavationSessionManager` / `addSnapshotToSession`  — src/core/ExcavationSessionManager.js
* `VirtualObjectScoreEngine` / `scoreSnapshot`         — src/core/VirtualObjectScoreEngine.js
* `MultiPassEngine.run`                                — src/inference/MultiPassEngine.js

Modelling conventions:
* JSON-like payloads are the inductive `JValue`; object entries are kept in
  insertion order, matching `Object.entries`.
* The process-wide id counter (`nextId` in the source, advanced by `genId`)
  is threaded explicitly; an id is modelled as the `Nat` value of the counter
  after the increment (`genId` returns the string `vo_<nextId in base 36>`,
  which is injective in the counter, so nothing is lost).
* JavaScript `from`/`to` relationship fields are named `fromId`/`toId`
  (`from` is a Lean keyword).
* Wall-clock reads (`Date.now()`, `new Date().toISOString()`) are inputs from
  the environment: `scoreSnapshot` takes an explicit `now` argument, and the
  `capturedAt` / `createdAt` fields, which no claim mentions, are omitted.
* Fractional scores are modelled as `ℚ`; the clamping `Math.max(0, Math.min(1, x))`
  is exact in floating point, so bounds proved over `ℚ` transfer.
* The persistence collaborator is `null` in every scenario the claims cover,
  so the `if (this.persistence)` branches of the source are dead and omitted.
-/

namespace Javaspectre

/-- JSON-like values walked by the excavator.  Object fields are an ordered
association list, mirroring JavaScript property insertion order. -/
inductive JValue where
  | null
  | bool (b : Bool)
  | num (n : Int)
  | str (s : String)
  | arr (xs : List JValue)
  | obj (fs : List (String × JValue))

/-- `_typeOf` from VirtualObjectExcavator.js: `null` and arrays are detected
before falling back to `typeof`. -/
def typeOf : JValue → String
  | .null => "null"
  | .arr _ => "array"
  | .obj _ => "object"
  | .str _ => "string"
  | .num _ => "number"
  | .bool _ => "boolean"

/-- Result of `_preview`: the JavaScript function returns the value itself for
`null`/number/boolean, a possibly truncated string for strings, and `null`
for anything else (that last arm maps to `pnull` here as well). -/
inductive JPreview where
  | pnull
  | pnum (n : Int)
  | pbool (b : Bool)
  | pstr (s : String)
  deriving DecidableEq

/-- `_preview` from VirtualObjectExcavator.js. -/
def preview : JValue → JPreview
  | .null => .pnull
  | .num n => .pnum n
  | .bool b => .pbool b
  | .str s => if s.length ≤ 64 then .pstr s else .pstr (s.take 61 ++ "...")
  | _ => .pnull

/-- A relationship edge as pushed by `_walkValue`: `kind` is `"field"` (with a
`name`) or `"element"` (with an `index`). -/
structure Relationship where
  fromId : Nat
  toId : Nat
  kind : String
  name : Option String := none
  index : Option Nat := none
  deriving DecidableEq

/-- A virtual object.  The excavator fills `fields` for object nodes,
`elementTypes` for array nodes and `valuePreview` for primitive nodes;
`signature` / `selector` / `ctor` are read (never written) by the score
engine and are absent on excavator output. -/
structure VirtualObject where
  id : Nat
  category : String
  path : String
  type : String
  fields : Option (List (String × String)) := none
  elementTypes : Option (List (String × Nat)) := none
  valuePreview : Option JPreview := none
  signature : Option String := none
  selector : Option String := none
  ctor : Option String := none
  deriving DecidableEq

/-- `excavate`'s return value.  `domSheets` is an `Option` because other
producers of results may omit the key entirely (the session manager guards
with `excavationResult.domSheets ? ... : 0`); the excavator always returns
`some []`. -/
structure ExcavationResult where
  virtualObjects : List VirtualObject
  relationships : List Relationship
  domSheets : Option (List Unit) := some []
  deriving DecidableEq

/-- Options of `VirtualObjectExcavator` with the constructor's defaults. -/
structure VirtualObjectExcavator where
  maxDepth : Nat := 6
  maxArraySample : Nat := 8
  includeDom : Bool := false

/-- One step of the `elementTypes[et] = (elementTypes[et] || 0) + 1` histogram
update, keeping JavaScript object key insertion order. -/
def histAdd (h : List (String × Nat)) (k : String) : List (String × Nat) :=
  match h with
  | [] => [(k, 1)]
  | (k', n) :: rest => if k' = k then (k', n + 1) :: rest else (k', n) :: histAdd rest k

/-- The `elementTypes` histogram accumulated over the sampled elements. -/
def elementTypesOf (xs : List JValue) : List (String × Nat) :=
  xs.foldl (fun h el => histAdd h (typeOf el)) []

/-- The `fields` map `{key -> typeOf value}` built over `Object.entries`. -/
def fieldsOf (fs : List (String × JValue)) : List (String × String) :=
  fs.map (fun kv => (kv.1, typeOf kv.2))

mutual

/-- `_walkValue(value, id, path, depth, vList, relList)`.  Returns the
virtual objects and relationships this call appends (in push order) together
with the final value of the id counter. -/
def walkValue (cfg : VirtualObjectExcavator) (value : JValue) (id : Nat)
    (path : String) (depth : Nat) (ctr : Nat) :
    List VirtualObject × List Relationship × Nat :=
  if depth > cfg.maxDepth then ([], [], ctr)
  else
    match value with
    | .obj fs =>
        let vo : VirtualObject :=
          { id := id, category := "struct", path := path, type := "object",
            fields := some (fieldsOf fs) }
        let p := walkFields cfg fs id path depth ctr
        (vo :: p.1, p.2.1, p.2.2)
    | .arr xs =>
        let vo : VirtualObject :=
          { id := id, category := "struct", path := path, type := "array",
            elementTypes := some (elementTypesOf (xs.take cfg.maxArraySample)) }
        let p := walkElems cfg xs cfg.maxArraySample id path depth 0 ctr
        (vo :: p.1, p.2.1, p.2.2)
    | v =>
        ([{ id := id, category := "value", path := path, type := typeOf v,
            valuePreview := some (preview v) }], [], ctr)
termination_by structural value

/-- The `for (const [k, v] of Object.entries(value))` loop of the object
branch: for each key, generate a child id, push a `field` relationship and
recurse at `depth + 1`. -/
def walkFields (cfg : VirtualObjectExcavator) (fs : List (String × JValue))
    (id : Nat) (path : String) (depth : Nat) (ctr : Nat) :
    List VirtualObject × List Relationship × Nat :=
  match fs with
  | [] => ([], [], ctr)
  | (k, v) :: rest =>
      let childId := ctr + 1
      let rel : Relationship :=
        { fromId := id, toId := childId, kind := "field", name := some k }
      let p1 := walkValue cfg v childId (path ++ "." ++ k) (depth + 1) childId
      let p2 := walkFields cfg rest id path depth p1.2.2
      (p1.1 ++ p2.1, rel :: (p1.2.1 ++ p2.2.1), p2.2.2)
termination_by structural fs

/-- The `sampled.forEach((el, idx) => ...)` loop of the array branch, written
as a counted walk: `remaining` starts at `maxArraySample`, so exactly the
first `min maxArraySample xs.length` elements are visited — the same elements
as `value.slice(0, maxArraySample)`. -/
def walkElems (cfg : VirtualObjectExcavator) (xs : List JValue) (remaining : Nat)
    (id : Nat) (path : String) (depth : Nat) (idx : Nat) (ctr : Nat) :
    List VirtualObject × List Relationship × Nat :=
  match xs, remaining with
  | [], _ => ([], [], ctr)
  | _ :: _, 0 => ([], [], ctr)
  | x :: rest, n + 1 =>
      let childId := ctr + 1
      let rel : Relationship :=
        { fromId := id, toId := childId, kind := "element", index := some idx }
      let p1 := walkValue cfg x childId (path ++ "[" ++ toString idx ++ "]") (depth + 1) childId
      let p2 := walkElems cfg rest n id path depth (idx + 1) p1.2.2
      (p1.1 ++ p2.1, rel :: (p1.2.1 ++ p2.2.1), p2.2.2)
termination_by structural xs

end

/-- The root unwrapping at the top of `excavate`:
`input && hasOwnProperty(input, "value") ? input.value : input`.
Only an object can own a `"value"` property. -/
def rootOf (input : JValue) : JValue :=
  match input with
  | .obj fs =>
      match List.lookup "value" fs with
      | some v => v
      | none => .obj fs
  | v => v

/-- `excavate(input)`: unwrap the root, draw a root id from the process-wide
counter and walk from depth 0.  Returns the result and the advanced counter. -/
def excavate (cfg : VirtualObjectExcavator) (input : JValue) (nextId : Nat) :
    ExcavationResult × Nat :=
  let root := rootOf input
  let rootId := nextId + 1
  let p := walkValue cfg root rootId "#" 0 rootId
  ({ virtualObjects := p.1, relationships := p.2.1, domSheets := some [] }, p.2.2)

/-! ### Session manager (src/core/ExcavationSessionManager.js) -/

/-- The `metrics` record of a snapshot, derived from the result's list
lengths (`domSheets` length defaulting to 0 when the key is absent). -/
structure Metrics where
  virtualObjects : Nat
  relationships : Nat
  domSheets : Nat
  deriving DecidableEq

/-- `metrics` computation inside `addSnapshot`. -/
def metricsOf (r : ExcavationResult) : Metrics :=
  { virtualObjects := r.virtualObjects.length,
    relationships := r.relationships.length,
    domSheets :=
      match r.domSheets with
      | some ds => ds.length
      | none => 0 }

/-- A snapshot as built by `addSnapshot` (`capturedAt` omitted: it is an
environment-provided wall-clock string no claim mentions). -/
structure Snapshot where
  id : String
  label : String
  metrics : Metrics
  result : ExcavationResult
  deriving DecidableEq

instance : Inhabited Snapshot :=
  ⟨{ id := "", label := "",
     metrics := { virtualObjects := 0, relationships := 0, domSheets := 0 },
     result := { virtualObjects := [], relationships := [], domSheets := none } }⟩

/-- The running `summary` of a session. -/
structure Summary where
  totalVirtualObjects : Nat
  totalRelationships : Nat
  domSheets : Nat
  driftEvents : Nat
  deriving DecidableEq

/-- A session (`createdAt` / `metadata` omitted: opaque, unused by the
claims). -/
structure Session where
  id : String
  snapshots : List Snapshot
  summary : Summary
  deriving DecidableEq

/-- The snapshot literal built at the top of `addSnapshot`:
its id is `` `${sessionId}:${session.snapshots.length}` `` with the log
length taken *before* the append. -/
def mkSnapshot (sid : String) (logLen : Nat) (label : String)
    (r : ExcavationResult) : Snapshot :=
  { id := sid ++ ":" ++ toString logLen, label := label,
    metrics := metricsOf r, result := r }

/-- `_updateSummary`: re-sum the three totals over the current window with a
running accumulator; `driftEvents` is left untouched. -/
def updateSummary (s : Session) : Session :=
  { s with summary :=
      { s.summary with
        totalVirtualObjects :=
          s.snapshots.foldl (fun acc snap => acc + snap.metrics.virtualObjects) 0,
        totalRelationships :=
          s.snapshots.foldl (fun acc snap => acc + snap.metrics.relationships) 0,
        domSheets :=
          s.snapshots.foldl (fun acc snap => acc + snap.metrics.domSheets) 0 } }

/-- `driftScore = |ΔvirtualObjects| + |Δrelationships|` between two
snapshots' metrics (`Math.abs` on the signed difference). -/
def driftScore (latest prev : Snapshot) : Nat :=
  ((latest.metrics.virtualObjects : Int) - (prev.metrics.virtualObjects : Int)).natAbs +
    ((latest.metrics.relationships : Int) - (prev.metrics.relationships : Int)).natAbs

/-- `_detectDrift`: with fewer than 2 snapshots do nothing; otherwise compare
the last two and bump `driftEvents` by 1 when the score is positive. -/
def detectDrift (s : Session) : Session :=
  if s.snapshots.length < 2 then s
  else
    let latest := s.snapshots.getD (s.snapshots.length - 1) default
    let prev := s.snapshots.getD (s.snapshots.length - 2) default
    if driftScore latest prev > 0 then
      { s with summary := { s.summary with driftEvents := s.summary.driftEvents + 1 } }
    else s

/-- The per-session body of `addSnapshot` (after the session lookup): build
the snapshot, push it, `shift()` the oldest entry when the log now exceeds
`maxSnapshots`, recompute the summary, run drift detection.  Returns the
updated session and the snapshot that was returned to the caller. -/
def addSnapshotToSession (maxSnapshots : Nat) (s : Session)
    (r : ExcavationResult) (label : String) : Session × Snapshot :=
  let snap := mkSnapshot s.id s.snapshots.length label r
  let log1 := s.snapshots ++ [snap]
  let log2 := if log1.length > maxSnapshots then log1.tail else log1
  let s1 := { s with snapshots := log2 }
  (detectDrift (updateSummary s1), snap)

/-- The manager: `maxSnapshots` option (constructor default 20) and the
in-memory session map, modelled as an insertion-ordered association list. -/
structure ExcavationSessionManager where
  maxSnapshots : Nat := 20
  sessions : List (String × Session) := []

/-- A session as `startSession` creates it: empty log, zeroed summary. -/
def freshSession (sid : String) : Session :=
  { id := sid, snapshots := [],
    summary := { totalVirtualObjects := 0, totalRelationships := 0,
                 domSheets := 0, driftEvents := 0 } }

/-- `startSession` (persistence-free path): return the existing session for
the id unchanged, or register a fresh one. -/
def startSession (m : ExcavationSessionManager) (sid : String) :
    ExcavationSessionManager × Session :=
  match List.lookup sid m.sessions with
  | some s => (m, s)
  | none =>
      let s := freshSession sid
      ({ m with sessions := m.sessions ++ [(sid, s)] }, s)

/-- Replace the binding of one session id in the map. -/
def setSession (l : List (String × Session)) (sid : String) (s : Session) :
    List (String × Session) :=
  match l with
  | [] => []
  | (k, old) :: rest =>
      if k = sid then (k, s) :: rest else (k, old) :: setSession rest sid s

/-- `addSnapshot(sessionId, excavationResult, label)`: `none` models the
`throw` on an unknown session id. -/
def addSnapshot (m : ExcavationSessionManager) (sid : String)
    (r : ExcavationResult) (label : String) :
    Option (ExcavationSessionManager × Snapshot) :=
  match List.lookup sid m.sessions with
  | none => none
  | some s =>
      let p := addSnapshotToSession m.maxSnapshots s r label
      some ({ m with sessions := setSession m.sessions sid p.1 }, p.2)

/-- A sequence of `addSnapshot` calls against one session, keeping only the
evolving session state. -/
def applyAdds (maxSnapshots : Nat) (s : Session)
    (rs : List (ExcavationResult × String)) : Session :=
  rs.foldl (fun acc rl => (addSnapshotToSession maxSnapshots acc rl.1 rl.2).1) s

/-- The sequence of snapshots returned by a run of `addSnapshot` calls
against one session, in creation order (including any that were later
evicted from the window). -/
def addTrace (maxSnapshots : Nat) (s : Session)
    (rs : List (ExcavationResult × String)) : List Snapshot :=
  match rs with
  | [] => []
  | (r, l) :: rest =>
      let p := addSnapshotToSession maxSnapshots s r l
      p.2 :: addTrace maxSnapshots p.1 rest

/-! ### Score engine (src/core/VirtualObjectScoreEngine.js) -/

/-- Minimal model of the string escaping `JSON.stringify` applies to key and
value strings (quote and backslash; the identity on the character data the
pipeline actually produces). -/
def jsonEscape (s : String) : String :=
  String.join (s.toList.map fun c =>
    if c = '\\' then "\\\\" else if c = '"' then "\\\"" else String.singleton c)

/-- `JSON.stringify(fields)` for a string-to-string map in insertion order. -/
def jsonStringifyFields (fs : List (String × String)) : String :=
  "\x7b" ++
    String.intercalate ","
      (fs.map fun kv => "\"" ++ jsonEscape kv.1 ++ "\":\"" ++ jsonEscape kv.2 ++ "\"") ++
    "\x7d"

/-- JavaScript `a || b` over an optional string: an absent or empty string is
falsy. -/
def truthyOr (o : Option String) (d : String) : String :=
  match o with
  | some s => if s = "" then d else s
  | none => d

/-- Character-list search behind `containsSub`: does `pat` occur as a
contiguous run? -/
def containsAux (pat : List Char) : List Char → Bool
  | [] => pat.isPrefixOf []
  | c :: rest => pat.isPrefixOf (c :: rest) || containsAux pat rest

/-- Model of `String.prototype.includes`. -/
def containsSub (s sub : String) : Bool :=
  containsAux sub.toList s.toList

/-- Model of `String.prototype.toLowerCase` (ASCII, which covers every name
the pipeline produces). -/
def jsToLower (s : String) : String :=
  ⟨s.data.map Char.toLower⟩

/-- The engine: `historyWindow` option (constructor default 10) and the
process-wide identity-key → observation-timestamps map. -/
structure VirtualObjectScoreEngine where
  historyWindow : Nat := 10
  objectHistory : List (String × List Int) := []

/-- `_makeKey`: `category + ":" + signature`, where the category falls back
to `"unknown"` and the signature is the explicit string field if present,
else `JSON.stringify(vo.fields || {})`. -/
def makeKey (vo : VirtualObject) : String :=
  let cat := if vo.category = "" then "unknown" else vo.category
  let sig :=
    match vo.signature with
    | some s => s
    | none => jsonStringifyFields (vo.fields.getD [])
  cat ++ ":" ++ sig

/-- `_getHistory`: the key's history, `[]` when the key is new (the source
also installs the empty array in the map; observationally the map only
changes at the subsequent `_updateHistory`, which this model folds in). -/
def getHistory (eng : VirtualObjectScoreEngine) (key : String) : List Int :=
  (List.lookup key eng.objectHistory).getD []

/-- Write one key's history back into the map (insert at the end if new). -/
def setHistory (l : List (String × List Int)) (key : String) (v : List Int) :
    List (String × List Int) :=
  match l with
  | [] => [(key, v)]
  | (k, old) :: rest =>
      if k = key then (k, v) :: rest else (k, old) :: setHistory rest key v

/-- `_updateHistory`: push `now`, then `shift()` once if the ring exceeds
`historyWindow`. -/
def updateHistory (eng : VirtualObjectScoreEngine) (key : String) (now : Int) :
    VirtualObjectScoreEngine :=
  let h1 := getHistory eng key ++ [now]
  let h2 := if h1.length > eng.historyWindow then h1.tail else h1
  { eng with objectHistory := setHistory eng.objectHistory key h2 }

/-- `_computeStability`: 0.2 with fewer than 2 observations, else the average
inter-observation interval over 24h, clamped to [0,1]. -/
def computeStability (hist : List Int) : ℚ :=
  if hist.length < 2 then 1 / 5
  else
    let intervals : List Int := (hist.zip hist.tail).map fun p => p.2 - p.1
    let avgInterval : ℚ := ((intervals.map fun i => (Int.cast i : ℚ)).sum) / (intervals.length : ℚ)
    max 0 (min 1 (avgInterval / (24 * 60 * 60 * 1000)))

/-- `_computeNovelty`: 1.0 at history length 1, 0.5 at length 0, else the age
of the last observation over 7 days, clamped to [0,1].  `now` models the
`Date.now()` read. -/
def computeNovelty (now : Int) (hist : List Int) : ℚ :=
  if hist.length = 1 then 1
  else if hist.length = 0 then 1 / 2
  else
    let lastSeen := hist.getD (hist.length - 1) 0
    let ageMs : ℚ := Int.cast (now - lastSeen)
    max 0 (min 1 (ageMs / (7 * 24 * 60 * 60 * 1000)))

/-- `_computeReuseHint`. -/
def computeReuseHint (vo : VirtualObject) : String :=
  let name := truthyOr vo.selector (truthyOr vo.ctor
    (if vo.category = "" then "object" else vo.category))
  let lowered := jsToLower name
  if containsSub lowered "button" then "ui-action"
  else if vo.category = "dom-tag" ∨ vo.category = "dom-motif" then "dom-structure"
  else if vo.category = "struct" ∨ vo.category = "api-schema" then "api-schema"
  else "misc"

/-- A score row as pushed by `scoreSnapshot`. -/
structure Score where
  id : Nat
  category : String
  stability : ℚ
  novelty : ℚ
  reuseHint : String
  deriving DecidableEq

/-- One iteration of the `scoreSnapshot` loop: stability and novelty are
computed from the history *before* `_updateHistory` appends the current
observation. -/
def scoreOne (eng : VirtualObjectScoreEngine) (now : Int) (vo : VirtualObject) :
    VirtualObjectScoreEngine × Score :=
  let key := makeKey vo
  let hist := getHistory eng key
  let stability := computeStability hist
  let novelty := computeNovelty now hist
  let reuseHint := computeReuseHint vo
  let eng' := updateHistory eng key now
  (eng',
   { id := vo.id,
     category := if vo.category = "" then "unknown" else vo.category,
     stability := stability, novelty := novelty, reuseHint := reuseHint })

/-- `scoreSnapshot(snapshot)`: fold the loop over
`snapshot.result.virtualObjects` in order, threading the history map.
`now` models the (constant within one call) `Date.now()` reads. -/
def scoreSnapshot (eng : VirtualObjectScoreEngine) (now : Int) (snap : Snapshot) :
    VirtualObjectScoreEngine × List Score :=
  snap.result.virtualObjects.foldl
    (fun acc vo =>
      let p := scoreOne acc.1 now vo
      (p.1, acc.2 ++ [p.2]))
    (eng, [])

/-! ### Multi-pass engine (src/inference/MultiPassEngine.js) -/

/-- `MultiPassEngine` options with the constructor's default. -/
structure MultiPassEngine where
  maxDeepRegions : Nat := 16

/-- The `for (const region of selectedRegions)` loop of `run`: one deep pass
per region, in list order, pushing `{region, deep}` onto the accumulator. -/
def deepLoop {σ α β γ : Type} (input : α) (deepFn : α → γ → σ → β × σ)
    (regions : List γ) (acc : List (γ × β)) (s : σ) : List (γ × β) × σ :=
  match regions with
  | [] => (acc, s)
  | region :: rest =>
      let q := deepFn input region s
      deepLoop input deepFn rest (acc ++ [(region, q.1)]) q.2

/-- `run({input, shallowFn, deepFn, regionSelector})`.  The caller-supplied
functions are arbitrary effectful JavaScript functions, so they are modelled
with an explicit state `σ` threaded in source evaluation order: shallow pass
first, then the optional region selector, then one deep pass per retained
region, sequentially.  Returns `{shallowResult, deepResults}` plus the final
state. -/
def MultiPassEngine.run {σ α β γ : Type} (eng : MultiPassEngine) (input : α)
    (shallowFn : α → σ → β × σ) (deepFn : α → γ → σ → β × σ)
    (regionSelector : Option (β → σ → List γ × σ)) (s0 : σ) :
    (β × List (γ × β)) × σ :=
  let ps := shallowFn input s0
  let shallowResult := ps.1
  let pr :=
    match regionSelector with
    | some sel => sel shallowResult ps.2
    | none => ([], ps.2)
  let selectedRegions := pr.1.take eng.maxDeepRegions
  let pd := deepLoop input deepFn selectedRegions [] pr.2
  ((shallowResult, pd.1), pd.2)

/-! ### Concrete fixtures used by the claim instances -/

/-- The depth-truncation example input `{"a":{"b":{"c":1}}}`. -/
def nestedInput : JValue := .obj [("a", .obj [("b", .obj [("c", .num 1)])])]

/-- The array-sampling example input `[1,2,3,4]`. -/
def arrayInput : JValue := .arr [.num 1, .num 2, .num 3, .num 4]

/-- A result with `n` virtual objects, no relationships and no DOM sheets. -/
def sampleResult (n : Nat) : ExcavationResult :=
  { virtualObjects := (List.range n).map fun i =>
      { id := i, category := "value", path := "#", type := "number" },
    relationships := [], domSheets := some [] }

/-- A single primitive virtual object, as the excavator emits for `5`. -/
def testVo : VirtualObject :=
  { id := 1, category := "value", path := "#", type := "number",
    valuePreview := some (.pnum 5) }

/-- A snapshot wrapping `testVo` alone. -/
def testSnap : Snapshot :=
  mkSnapshot "s" 0 "deep"
    { virtualObjects := [testVo], relationships := [], domSheets := some [] }

/-- The score a fresh engine produces for `testVo`: empty history gives
stability 0.2 and novelty 0.5. -/
def testScore : Score :=
  { id := 1, category := "value", stability := 1 / 5, novelty := 1 / 2,
    reuseHint := "misc" }

/-- One-virtual-object result (for drift content-independence). -/
def resultA : ExcavationResult :=
  { virtualObjects := [{ id := 1, category := "value", path := "#", type := "number" }],
    relationships := [], domSheets := some [] }

/-- A different one-virtual-object result with the same counts as `resultA`. -/
def resultB : ExcavationResult :=
  { virtualObjects := [{ id := 2, category := "value", path := "#.x", type := "string" }],
    relationships := [], domSheets := some [] }

/-! ## Theorems -/

/-! ### Session-manager lemmas -/

theorem foldl_add_eq_sum {α : Type} (f : α → Nat) (l : List α) (n : Nat) :
    l.foldl (fun acc x => acc + f x) n = n + (l.map f).sum := by
  induction l generalizing n with
  | nil => simp
  | cons x xs ih => simp [ih]; ring

theorem detectDrift_preserves (s : Session) :
    (detectDrift s).snapshots = s.snapshots ∧
    (detectDrift s).summary.totalVirtualObjects = s.summary.totalVirtualObjects ∧
    (detectDrift s).summary.totalRelationships = s.summary.totalRelationships ∧
    (detectDrift s).summary.domSheets = s.summary.domSheets := by
  simp only [detectDrift]
  split
  · exact ⟨rfl, rfl, rfl, rfl⟩
  · split
    · exact ⟨rfl, rfl, rfl, rfl⟩
    · exact ⟨rfl, rfl, rfl, rfl⟩

theorem detectDrift_driftEvents (s : Session) :
    (detectDrift s).summary.driftEvents =
      s.summary.driftEvents +
        (if 2 ≤ s.snapshots.length ∧
            0 < driftScore (s.snapshots.getD (s.snapshots.length - 1) default)
              (s.snapshots.getD (s.snapshots.length - 2) default)
         then 1 else 0) := by
  simp only [detectDrift]
  split
  · rename_i hlt
    have hcond : ¬ (2 ≤ s.snapshots.length ∧
        0 < driftScore (s.snapshots.getD (s.snapshots.length - 1) default)
          (s.snapshots.getD (s.snapshots.length - 2) default)) := by
      intro hc
      omega
    rw [if_neg hcond, Nat.add_zero]
  · rename_i hge
    split
    · rename_i hscore
      have hcond : 2 ≤ s.snapshots.length ∧
          0 < driftScore (s.snapshots.getD (s.snapshots.length - 1) default)
            (s.snapshots.getD (s.snapshots.length - 2) default) := ⟨by omega, hscore⟩
      rw [if_pos hcond]
    · rename_i hscore
      have hcond : ¬ (2 ≤ s.snapshots.length ∧
          0 < driftScore (s.snapshots.getD (s.snapshots.length - 1) default)
            (s.snapshots.getD (s.snapshots.length - 2) default)) := by
        intro hc
        exact hscore hc.2
      rw [if_neg hcond, Nat.add_zero]

theorem updateSummary_spec (s : Session) :
    (updateSummary s).snapshots = s.snapshots ∧
    (updateSummary s).summary.totalVirtualObjects
      = (s.snapshots.map fun sn => sn.metrics.virtualObjects).sum ∧
    (updateSummary s).summary.totalRelationships
      = (s.snapshots.map fun sn => sn.metrics.relationships).sum ∧
    (updateSummary s).summary.domSheets
      = (s.snapshots.map fun sn => sn.metrics.domSheets).sum ∧
    (updateSummary s).summary.driftEvents = s.summary.driftEvents := by
  refine ⟨rfl, ?_, ?_, ?_, rfl⟩ <;>
    simp [updateSummary, foldl_add_eq_sum]

theorem addSnapshot_snapshots_eq (maxSnapshots : Nat) (s : Session)
    (r : ExcavationResult) (label : String) :
    ((addSnapshotToSession maxSnapshots s r label).1).snapshots =
      (if s.snapshots.length + 1 > maxSnapshots
       then (s.snapshots ++ [(addSnapshotToSession maxSnapshots s r label).2]).tail
       else s.snapshots ++ [(addSnapshotToSession maxSnapshots s r label).2]) := by
  unfold addSnapshotToSession
  simp only [(detectDrift_preserves _).1, (updateSummary_spec _).1]
  simp [List.length_append]

theorem addSnapshot_snap_eq (maxSnapshots : Nat) (s : Session)
    (r : ExcavationResult) (label : String) :
    (addSnapshotToSession maxSnapshots s r label).2
      = mkSnapshot s.id s.snapshots.length label r := rfl

theorem addSnapshot_length_le (maxSnapshots : Nat) (s : Session)
    (r : ExcavationResult) (label : String) (h : s.snapshots.length ≤ maxSnapshots) :
    ((addSnapshotToSession maxSnapshots s r label).1).snapshots.length ≤ maxSnapshots := by
  rw [addSnapshot_snapshots_eq]
  split
  · simp [List.length_tail, List.length_append]
    omega
  · simp only [List.length_append, List.length_cons, List.length_nil]
    omega

theorem applyAdds_length_le (maxSnapshots : Nat)
    (rs : List (ExcavationResult × String)) :
    ∀ (s : Session), s.snapshots.length ≤ maxSnapshots →
      (applyAdds maxSnapshots s rs).snapshots.length ≤ maxSnapshots := by
  induction rs with
  | nil => intro s h; exact h
  | cons rl rest ih =>
      intro s h
      exact ih _ (addSnapshot_length_le maxSnapshots s rl.1 rl.2 h)

theorem drop_succ_append_tail {α : Type} (A B : List α) (hA : A ≠ []) (n : Nat) :
    (A ++ B).drop (n + 1) = (A.tail ++ B).drop n := by
  cases A with
  | nil => exact absurd rfl hA
  | cons a A' => simp [List.drop_succ_cons]

theorem applyAdds_window (maxSnapshots : Nat)
    (rs : List (ExcavationResult × String)) :
    ∀ (s : Session), s.snapshots.length ≤ maxSnapshots →
      (applyAdds maxSnapshots s rs).snapshots =
        (s.snapshots ++ addTrace maxSnapshots s rs).drop
          (s.snapshots.length + rs.length - maxSnapshots) := by
  induction rs with
  | nil =>
      intro s h
      simp [applyAdds, addTrace, Nat.sub_eq_zero_of_le h]
  | cons rl rest ih =>
      intro s h
      obtain ⟨r, l⟩ := rl
      have hsnap := addSnapshot_snapshots_eq maxSnapshots s r l
      have happly :
          applyAdds maxSnapshots s ((r, l) :: rest)
            = applyAdds maxSnapshots (addSnapshotToSession maxSnapshots s r l).1 rest := rfl
      have htrace :
          addTrace maxSnapshots s ((r, l) :: rest)
            = (addSnapshotToSession maxSnapshots s r l).2
                :: addTrace maxSnapshots (addSnapshotToSession maxSnapshots s r l).1 rest := rfl
      set p := addSnapshotToSession maxSnapshots s r l with hp
      by_cases hcap : s.snapshots.length + 1 > maxSnapshots
      · -- eviction step: the old log is exactly at capacity
        have hlen : s.snapshots.length = maxSnapshots := by omega
        have hps : p.1.snapshots = (s.snapshots ++ [p.2]).tail := by
          rw [hsnap, if_pos hcap]
        have hplen : p.1.snapshots.length = maxSnapshots := by
          rw [hps]
          simp [List.length_tail, List.length_append, hlen]
        rw [happly, htrace, ih p.1 (le_of_eq hplen)]
        have hcount : s.snapshots.length + ((r, l) :: rest).length - maxSnapshots
            = rest.length + 1 := by
          simp only [List.length_cons]
          omega
        have hcount' : p.1.snapshots.length + rest.length - maxSnapshots = rest.length := by
          rw [hplen]; omega
        rw [hcount, hcount', hps]
        have hne : s.snapshots ++ [p.2] ≠ [] := by simp
        have := drop_succ_append_tail (s.snapshots ++ [p.2])
          (addTrace maxSnapshots p.1 rest) hne rest.length
        simpa [List.append_assoc] using this.symm
      · -- append step: room in the window
        have hps : p.1.snapshots = s.snapshots ++ [p.2] := by
          rw [hsnap, if_neg hcap]
        have hplen : p.1.snapshots.length = s.snapshots.length + 1 := by
          rw [hps]; simp
        have hple : p.1.snapshots.length ≤ maxSnapshots := by omega
        rw [happly, htrace, ih p.1 hple]
        have hcount : s.snapshots.length + ((r, l) :: rest).length - maxSnapshots
            = p.1.snapshots.length + rest.length - maxSnapshots := by
          simp only [List.length_cons, hplen]
          omega
        rw [hcount, hps]
        simp [List.append_assoc]

theorem addSnapshotToSession_eq (maxSnapshots : Nat) (s : Session)
    (r : ExcavationResult) (label : String) :
    addSnapshotToSession maxSnapshots s r label =
      (detectDrift (updateSummary
        { s with snapshots :=
            if (s.snapshots ++ [mkSnapshot s.id s.snapshots.length label r]).length > maxSnapshots
            then (s.snapshots ++ [mkSnapshot s.id s.snapshots.length label r]).tail
            else s.snapshots ++ [mkSnapshot s.id s.snapshots.length label r] }),
       mkSnapshot s.id s.snapshots.length label r) := rfl

theorem addSnapshot_driftEvents (maxSnapshots : Nat) (s : Session)
    (r : ExcavationResult) (label : String) :
    ((addSnapshotToSession maxSnapshots s r label).1).summary.driftEvents =
      s.summary.driftEvents +
        (if 2 ≤ ((addSnapshotToSession maxSnapshots s r label).1).snapshots.length ∧
            0 < driftScore
              (((addSnapshotToSession maxSnapshots s r label).1).snapshots.getD
                (((addSnapshotToSession maxSnapshots s r label).1).snapshots.length - 1) default)
              (((addSnapshotToSession maxSnapshots s r label).1).snapshots.getD
                (((addSnapshotToSession maxSnapshots s r label).1).snapshots.length - 2) default)
         then 1 else 0) := by
  rw [addSnapshotToSession_eq]
  set u := updateSummary
    { s with snapshots :=
        if (s.snapshots ++ [mkSnapshot s.id s.snapshots.length label r]).length > maxSnapshots
        then (s.snapshots ++ [mkSnapshot s.id s.snapshots.length label r]).tail
        else s.snapshots ++ [mkSnapshot s.id s.snapshots.length label r] } with hu
  have hde : u.summary.driftEvents = s.summary.driftEvents := by
    rw [hu]
    exact (updateSummary_spec _).2.2.2.2
  rw [(detectDrift_preserves u).1, detectDrift_driftEvents u, hde]


/-! ### Claim C2 — snapshot window capacity and FIFO eviction -/

/-- C2: after any sequence of `addSnapshot` calls on a fresh session the log
length never exceeds `maxSnapshots`; the log is exactly the most recent
`maxSnapshots` of the snapshots created, in insertion order (each call
appends, and evicts only the oldest entry when the log would exceed
capacity); concretely, with `maxSnapshots = 2`, adding 3 snapshots leaves
exactly the 2nd and 3rd in order, with the summary re-summed over those two
only. -/
theorem claimC2 :
    (∀ (maxSnapshots : Nat) (sid : String) (rs : List (ExcavationResult × String)),
        (applyAdds maxSnapshots (freshSession sid) rs).snapshots.length ≤ maxSnapshots)
    ∧ (∀ (maxSnapshots : Nat) (sid : String) (rs : List (ExcavationResult × String)),
        (applyAdds maxSnapshots (freshSession sid) rs).snapshots =
          (addTrace maxSnapshots (freshSession sid) rs).drop (rs.length - maxSnapshots))
    ∧ (∀ (maxSnapshots : Nat) (s : Session) (r : ExcavationResult) (label : String),
        s.snapshots.length < maxSnapshots →
          ((addSnapshotToSession maxSnapshots s r label).1).snapshots
            = s.snapshots ++ [(addSnapshotToSession maxSnapshots s r label).2])
    ∧ (∀ (maxSnapshots : Nat) (s : Session) (r : ExcavationResult) (label : String),
        s.snapshots.length = maxSnapshots →
          ((addSnapshotToSession maxSnapshots s r label).1).snapshots
            = (s.snapshots ++ [(addSnapshotToSession maxSnapshots s r label).2]).tail)
    ∧ ((applyAdds 2 (freshSession "s")
          [(sampleResult 1, "a"), (sampleResult 2, "b"), (sampleResult 3, "c")]).snapshots
        = [mkSnapshot "s" 1 "b" (sampleResult 2), mkSnapshot "s" 2 "c" (sampleResult 3)]
      ∧ (applyAdds 2 (freshSession "s")
          [(sampleResult 1, "a"), (sampleResult 2, "b"), (sampleResult 3, "c")]).summary.totalVirtualObjects
        = 5) := by
  refine ⟨?_, ?_, ?_, ?_, by decide, by decide⟩
  · intro maxSnapshots sid rs
    exact applyAdds_length_le maxSnapshots rs (freshSession sid) (Nat.zero_le _)
  · intro maxSnapshots sid rs
    have h := applyAdds_window maxSnapshots rs (freshSession sid) (Nat.zero_le _)
    simpa [freshSession] using h
  · intro maxSnapshots s r label h
    rw [addSnapshot_snapshots_eq]
    have : ¬ s.snapshots.length + 1 > maxSnapshots := by omega
    rw [if_neg this]
  · intro maxSnapshots s r label h
    rw [addSnapshot_snapshots_eq]
    have : s.snapshots.length + 1 > maxSnapshots := by omega
    rw [if_pos this]

/-- C2 witness: the two hypothesis-bearing clauses of `claimC2` applied at a
concrete session below and at capacity. -/
theorem claimC2_wit :
    ((freshSession "w").snapshots.length < 3 ∧
      ((addSnapshotToSession 3 (freshSession "w") (sampleResult 1) "a").1).snapshots
        = (freshSession "w").snapshots
            ++ [(addSnapshotToSession 3 (freshSession "w") (sampleResult 1) "a").2])
    ∧ ((applyAdds 1 (freshSession "w") [(sampleResult 1, "a")]).snapshots.length = 1 ∧
        ((addSnapshotToSession 1 (applyAdds 1 (freshSession "w") [(sampleResult 1, "a")])
            (sampleResult 2) "b").1).snapshots
          = ((applyAdds 1 (freshSession "w") [(sampleResult 1, "a")]).snapshots
              ++ [(addSnapshotToSession 1 (applyAdds 1 (freshSession "w") [(sampleResult 1, "a")])
                    (sampleResult 2) "b").2]).tail) :=
  ⟨⟨by decide, claimC2.2.2.1 3 (freshSession "w") (sampleResult 1) "a" (by decide)⟩,
   ⟨by decide, claimC2.2.2.2.1 1 (applyAdds 1 (freshSession "w") [(sampleResult 1, "a")])
      (sampleResult 2) "b" (by decide)⟩⟩

/-! ### Claim C3 — summary is a re-sum over the current window -/

/-- C3: after every `addSnapshot` the summary totals equal the sums of the
per-snapshot metrics over the snapshots currently retained in the window
(recomputed from the current window, not accumulated across evicted
snapshots). -/
theorem claimC3 (maxSnapshots : Nat) (s : Session) (r : ExcavationResult)
    (label : String) :
    ((addSnapshotToSession maxSnapshots s r label).1).summary.totalVirtualObjects
      = (((addSnapshotToSession maxSnapshots s r label).1).snapshots.map
          fun sn => sn.metrics.virtualObjects).sum
    ∧ ((addSnapshotToSession maxSnapshots s r label).1).summary.totalRelationships
      = (((addSnapshotToSession maxSnapshots s r label).1).snapshots.map
          fun sn => sn.metrics.relationships).sum
    ∧ ((addSnapshotToSession maxSnapshots s r label).1).summary.domSheets
      = (((addSnapshotToSession maxSnapshots s r label).1).snapshots.map
          fun sn => sn.metrics.domSheets).sum := by
  rw [addSnapshotToSession_eq]
  set s1 : Session :=
    { s with snapshots :=
        if (s.snapshots ++ [mkSnapshot s.id s.snapshots.length label r]).length > maxSnapshots
        then (s.snapshots ++ [mkSnapshot s.id s.snapshots.length label r]).tail
        else s.snapshots ++ [mkSnapshot s.id s.snapshots.length label r] } with hs1
  have hd := detectDrift_preserves (updateSummary s1)
  have hu := updateSummary_spec s1
  refine ⟨?_, ?_, ?_⟩
  · rw [hd.2.1, hd.1, hu.1, hu.2.1]
  · rw [hd.2.2.1, hd.1, hu.1, hu.2.2.1]
  · rw [hd.2.2.2, hd.1, hu.1, hu.2.2.2.1]

/-! ### Claim C4 — drift detection is count-based on the last two snapshots -/

/-- C4: each `addSnapshot` increments `driftEvents` by exactly 1 when the
post-eviction window has at least two snapshots and the two most recent ones
differ in virtual-object or relationship count
(`driftScore = |Δ virtualObjects| + |Δ relationships| > 0`), and leaves it
unchanged otherwise — in particular no drift check happens with fewer than 2
snapshots, and two consecutive snapshots with identical counts but different
result contents never increment it (concrete instance: `resultA`/`resultB`). -/
theorem claimC4 :
    (∀ (maxSnapshots : Nat) (s : Session) (r : ExcavationResult) (label : String),
      ((addSnapshotToSession maxSnapshots s r label).1).summary.driftEvents =
        s.summary.driftEvents +
          (if 2 ≤ ((addSnapshotToSession maxSnapshots s r label).1).snapshots.length ∧
              0 < driftScore
                (((addSnapshotToSession maxSnapshots s r label).1).snapshots.getD
                  (((addSnapshotToSession maxSnapshots s r label).1).snapshots.length - 1) default)
                (((addSnapshotToSession maxSnapshots s r label).1).snapshots.getD
                  (((addSnapshotToSession maxSnapshots s r label).1).snapshots.length - 2) default)
           then 1 else 0))
    ∧ (resultA ≠ resultB
       ∧ metricsOf resultA = metricsOf resultB
       ∧ (applyAdds 10 (freshSession "s") [(resultA, "x"), (resultB, "y")]).summary.driftEvents = 0) := by
  refine ⟨addSnapshot_driftEvents, by decide, by decide, by decide⟩

/-! ### Claim C9 — snapshot ids repeat once the window is full -/

/-- C9: `addSnapshot` gives the new snapshot the id
`sessionId ++ ":" ++ (log length before the append)`; once the log has
reached `maxSnapshots` the length stays at `maxSnapshots`, so every
subsequent call returns the same id `sessionId ++ ":" ++ maxSnapshots`
(concretely, with `maxSnapshots = 1`, the 2nd and 3rd snapshots both get id
`"s:1"`). -/
theorem claimC9 :
    (∀ (maxSnapshots : Nat) (s : Session) (r : ExcavationResult) (label : String),
        (addSnapshotToSession maxSnapshots s r label).2.id
          = s.id ++ ":" ++ toString s.snapshots.length)
    ∧ (∀ (maxSnapshots : Nat) (s : Session) (r : ExcavationResult) (label : String),
        s.snapshots.length = maxSnapshots →
          ((addSnapshotToSession maxSnapshots s r label).1).snapshots.length = maxSnapshots ∧
          (addSnapshotToSession maxSnapshots s r label).2.id
            = s.id ++ ":" ++ toString maxSnapshots)
    ∧ ((addSnapshotToSession 1 (applyAdds 1 (freshSession "s") [(sampleResult 1, "a")])
          (sampleResult 2) "b").2.id = "s:1"
       ∧ (addSnapshotToSession 1
            (addSnapshotToSession 1 (applyAdds 1 (freshSession "s") [(sampleResult 1, "a")])
              (sampleResult 2) "b").1
            (sampleResult 3) "c").2.id = "s:1") := by
  refine ⟨fun maxSnapshots s r label => rfl, ?_, by decide, by decide⟩
  intro maxSnapshots s r label h
  constructor
  · rw [addSnapshot_snapshots_eq]
    have hgt : s.snapshots.length + 1 > maxSnapshots := by omega
    rw [if_pos hgt]
    simp [List.length_tail, List.length_append]
    omega
  · rw [addSnapshot_snap_eq]
    simp [mkSnapshot, h]

/-- C9 witness: the capacity clause of `claimC9` applied to a session whose
log already holds `maxSnapshots = 1` snapshots. -/
theorem claimC9_wit :
    (applyAdds 1 (freshSession "w") [(sampleResult 1, "a")]).snapshots.length = 1 ∧
    ((addSnapshotToSession 1 (applyAdds 1 (freshSession "w") [(sampleResult 1, "a")])
        (sampleResult 2) "b").1).snapshots.length = 1 ∧
    (addSnapshotToSession 1 (applyAdds 1 (freshSession "w") [(sampleResult 1, "a")])
        (sampleResult 2) "b").2.id
      = (applyAdds 1 (freshSession "w") [(sampleResult 1, "a")]).id ++ ":" ++ toString 1 := by
  refine ⟨by decide, ?_, ?_⟩
  · exact (claimC9.2.1 1 (applyAdds 1 (freshSession "w") [(sampleResult 1, "a")])
      (sampleResult 2) "b" (by decide)).1
  · exact (claimC9.2.1 1 (applyAdds 1 (freshSession "w") [(sampleResult 1, "a")])
      (sampleResult 2) "b" (by decide)).2



/-! ### Excavator lemmas -/

mutual

theorem walkValue_ctr_le (cfg : VirtualObjectExcavator) (v : JValue) (id : Nat)
    (path : String) (depth ctr : Nat) :
    ctr ≤ (walkValue cfg v id path depth ctr).2.2 := by
  cases v with
  | null => simp only [walkValue]; split <;> exact Nat.le_refl ctr
  | bool b => simp only [walkValue]; split <;> exact Nat.le_refl ctr
  | num n => simp only [walkValue]; split <;> exact Nat.le_refl ctr
  | str s => simp only [walkValue]; split <;> exact Nat.le_refl ctr
  | arr xs =>
      simp only [walkValue]
      split
      · exact Nat.le_refl ctr
      · exact walkElems_ctr_le cfg xs cfg.maxArraySample id path depth 0 ctr
  | obj fs =>
      simp only [walkValue]
      split
      · exact Nat.le_refl ctr
      · exact walkFields_ctr_le cfg fs id path depth ctr
termination_by structural v

theorem walkFields_ctr_le (cfg : VirtualObjectExcavator)
    (fs : List (String × JValue)) (id : Nat) (path : String) (depth ctr : Nat) :
    ctr ≤ (walkFields cfg fs id path depth ctr).2.2 := by
  cases fs with
  | nil => simp [walkFields]
  | cons kv rest =>
      obtain ⟨k, v⟩ := kv
      have h1 := walkValue_ctr_le cfg v (ctr + 1) (path ++ "." ++ k) (depth + 1) (ctr + 1)
      have h2 := walkFields_ctr_le cfg rest id path depth
        (walkValue cfg v (ctr + 1) (path ++ "." ++ k) (depth + 1) (ctr + 1)).2.2
      simp only [walkFields]
      omega
termination_by structural fs

theorem walkElems_ctr_le (cfg : VirtualObjectExcavator) (xs : List JValue)
    (remaining id : Nat) (path : String) (depth idx ctr : Nat) :
    ctr ≤ (walkElems cfg xs remaining id path depth idx ctr).2.2 := by
  cases xs with
  | nil => simp [walkElems]
  | cons x rest =>
      cases remaining with
      | zero => simp [walkElems]
      | succ n =>
          have h1 := walkValue_ctr_le cfg x (ctr + 1)
            (path ++ "[" ++ toString idx ++ "]") (depth + 1) (ctr + 1)
          have h2 := walkElems_ctr_le cfg rest n id path depth (idx + 1)
            (walkValue cfg x (ctr + 1) (path ++ "[" ++ toString idx ++ "]") (depth + 1) (ctr + 1)).2.2
          simp only [walkElems]
          omega
termination_by structural xs

end

mutual

theorem walkValue_rel_from (cfg : VirtualObjectExcavator) (v : JValue) (id : Nat)
    (path : String) (depth ctr : Nat) :
    ∀ r ∈ (walkValue cfg v id path depth ctr).2.1, r.fromId = id ∨ ctr < r.fromId := by
  cases v with
  | null => simp only [walkValue]; split <;> simp
  | bool b => simp only [walkValue]; split <;> simp
  | num n => simp only [walkValue]; split <;> simp
  | str s => simp only [walkValue]; split <;> simp
  | arr xs =>
      simp only [walkValue]
      split
      · simp
      · exact walkElems_rel_from cfg xs cfg.maxArraySample id path depth 0 ctr
  | obj fs =>
      simp only [walkValue]
      split
      · simp
      · exact walkFields_rel_from cfg fs id path depth ctr
termination_by structural v

theorem walkFields_rel_from (cfg : VirtualObjectExcavator)
    (fs : List (String × JValue)) (id : Nat) (path : String) (depth ctr : Nat) :
    ∀ r ∈ (walkFields cfg fs id path depth ctr).2.1, r.fromId = id ∨ ctr < r.fromId := by
  cases fs with
  | nil => simp [walkFields]
  | cons kv rest =>
      obtain ⟨k, v⟩ := kv
      have hchild := walkValue_rel_from cfg v (ctr + 1) (path ++ "." ++ k) (depth + 1) (ctr + 1)
      have hctr := walkValue_ctr_le cfg v (ctr + 1) (path ++ "." ++ k) (depth + 1) (ctr + 1)
      have hrest := walkFields_rel_from cfg rest id path depth
        (walkValue cfg v (ctr + 1) (path ++ "." ++ k) (depth + 1) (ctr + 1)).2.2
      simp only [walkFields]
      intro r hr
      simp only [List.mem_cons, List.mem_append] at hr
      rcases hr with rfl | hr | hr
      · left; rfl
      · rcases hchild r hr with h | h
        · right; omega
        · right; omega
      · rcases hrest r hr with h | h
        · left; exact h
        · right; omega
termination_by structural fs

theorem walkElems_rel_from (cfg : VirtualObjectExcavator) (xs : List JValue)
    (remaining id : Nat) (path : String) (depth idx ctr : Nat) :
    ∀ r ∈ (walkElems cfg xs remaining id path depth idx ctr).2.1,
      r.fromId = id ∨ ctr < r.fromId := by
  cases xs with
  | nil => simp [walkElems]
  | cons x rest =>
      cases remaining with
      | zero => simp [walkElems]
      | succ n =>
          have hchild := walkValue_rel_from cfg x (ctr + 1)
            (path ++ "[" ++ toString idx ++ "]") (depth + 1) (ctr + 1)
          have hctr := walkValue_ctr_le cfg x (ctr + 1)
            (path ++ "[" ++ toString idx ++ "]") (depth + 1) (ctr + 1)
          have hrest := walkElems_rel_from cfg rest n id path depth (idx + 1)
            (walkValue cfg x (ctr + 1) (path ++ "[" ++ toString idx ++ "]") (depth + 1) (ctr + 1)).2.2
          simp only [walkElems]
          intro r hr
          simp only [List.mem_cons, List.mem_append] at hr
          rcases hr with rfl | hr | hr
          · left; rfl
          · rcases hchild r hr with h | h
            · right; omega
            · right; omega
          · rcases hrest r hr with h | h
            · left; exact h
            · right; omega
termination_by structural xs

end

theorem walkValue_depth_cut (cfg : VirtualObjectExcavator) (v : JValue) (id : Nat)
    (path : String) (depth ctr : Nat) (h : depth > cfg.maxDepth) :
    walkValue cfg v id path depth ctr = ([], [], ctr) := by
  cases v <;> simp only [walkValue] <;> rw [if_pos h]

theorem walkValue_head (cfg : VirtualObjectExcavator) (v : JValue) (id : Nat)
    (path : String) (depth ctr : Nat) (h : ¬ depth > cfg.maxDepth) :
    ((walkValue cfg v id path depth ctr).1.head?.map fun vo => vo.id) = some id := by
  cases v <;> simp only [walkValue] <;> rw [if_neg h] <;> simp



theorem walkElems_take (cfg : VirtualObjectExcavator) (xs : List JValue) :
    ∀ (n id : Nat) (path : String) (depth idx ctr : Nat),
      walkElems cfg (xs.take n) n id path depth idx ctr
        = walkElems cfg xs n id path depth idx ctr := by
  induction xs with
  | nil => intros; simp
  | cons x rest ih =>
      intro n id path depth idx ctr
      cases n with
      | zero => simp [walkElems]
      | succ n =>
          simp only [List.take_succ_cons, walkElems]
          rw [ih]

theorem walkElems_element_rels (cfg : VirtualObjectExcavator) (xs : List JValue) :
    ∀ (n id : Nat) (path : String) (depth idx ctr : Nat), id ≤ ctr →
      (((walkElems cfg xs n id path depth idx ctr).2.1.filter
          fun r => r.fromId == id).map fun r => (r.kind, r.index))
        = (List.range' idx (min n xs.length)).map fun i => ("element", some i) := by
  induction xs with
  | nil => intro n id path depth idx ctr h; simp [walkElems]
  | cons x rest ih =>
      intro n id path depth idx ctr h
      cases n with
      | zero => simp [walkElems]
      | succ n =>
          have hchild := walkValue_rel_from cfg x (ctr + 1)
            (path ++ "[" ++ toString idx ++ "]") (depth + 1) (ctr + 1)
          have hctr := walkValue_ctr_le cfg x (ctr + 1)
            (path ++ "[" ++ toString idx ++ "]") (depth + 1) (ctr + 1)
          have hchild_nil :
              (walkValue cfg x (ctr + 1) (path ++ "[" ++ toString idx ++ "]")
                  (depth + 1) (ctr + 1)).2.1.filter (fun r => r.fromId == id) = [] := by
            rw [List.filter_eq_nil_iff]
            intro r hr
            simp only [beq_iff_eq]
            rcases hchild r hr with hh | hh <;> omega
          have hsub : id ≤ (walkValue cfg x (ctr + 1)
              (path ++ "[" ++ toString idx ++ "]") (depth + 1) (ctr + 1)).2.2 := by omega
          have hih := ih n id path depth (idx + 1)
            ((walkValue cfg x (ctr + 1) (path ++ "[" ++ toString idx ++ "]")
                (depth + 1) (ctr + 1)).2.2) hsub
          simp only [walkElems, List.filter_cons, beq_self_eq_true, if_true,
            List.filter_append, hchild_nil, List.nil_append, List.map_cons, hih,
            List.length_cons, Nat.succ_min_succ, List.range'_succ]


/-! ### Claim C1 — depth truncation emits nothing past maxDepth -/

/-- C1: a node reached at depth greater than `maxDepth` emits nothing at all
(no placeholder virtual object, no relationships, no counter movement),
while a node reached at depth at most `maxDepth` emits its own virtual
object (carrying the node's id) first; concretely, with `maxDepth = 1` and
input `{"a":{"b":{"c":1}}}`, the result is exactly a struct VO for the root
with fields `{a: "object"}`, a struct VO for `a` with fields `{b: "object"}`,
a `field` relationship root→a, a `field` relationship a→b — and no virtual
object carries the dangling target id 3 of the a→b edge. -/
theorem claimC1 :
    (∀ (cfg : VirtualObjectExcavator) (v : JValue) (id : Nat) (path : String) (depth ctr : Nat),
        depth > cfg.maxDepth → walkValue cfg v id path depth ctr = ([], [], ctr))
    ∧ (∀ (cfg : VirtualObjectExcavator) (v : JValue) (id : Nat) (path : String) (depth ctr : Nat),
        depth ≤ cfg.maxDepth →
          ((walkValue cfg v id path depth ctr).1.head?.map fun vo => vo.id) = some id)
    ∧ (excavate { maxDepth := 1 } nestedInput 0
        = ({ virtualObjects :=
               [{ id := 1, category := "struct", path := "#", type := "object",
                  fields := some [("a", "object")] },
                { id := 2, category := "struct", path := "#.a", type := "object",
                  fields := some [("b", "object")] }],
             relationships :=
               [{ fromId := 1, toId := 2, kind := "field", name := some "a" },
                { fromId := 2, toId := 3, kind := "field", name := some "b" }],
             domSheets := some [] }, 3))
    ∧ (∀ vo ∈ (excavate { maxDepth := 1 } nestedInput 0).1.virtualObjects, vo.id ≠ 3) := by
  refine ⟨walkValue_depth_cut, ?_, by decide, by decide⟩
  intro cfg v id path depth ctr h
  exact walkValue_head cfg v id path depth ctr (by omega)

/-- C1 witness: `claimC1` applied at depth 2 over `maxDepth = 1` (cut), at
depth 0 (emission), and at the first root virtual object (dangling id). -/
theorem claimC1_wit :
    ((2 : Nat) > (1 : Nat) ∧
      walkValue { maxDepth := 1 } (.num 7) 5 "#" 2 5 = ([], [], 5))
    ∧ ((0 : Nat) ≤ (1 : Nat) ∧
        ((walkValue { maxDepth := 1 } (.num 7) 5 "#" 0 5).1.head?.map fun vo => vo.id)
          = some 5)
    ∧ ({ id := 1, category := "struct", path := "#", type := "object",
          fields := some [("a", "object")] } : VirtualObject).id ≠ 3 :=
  ⟨⟨by decide, claimC1.1 { maxDepth := 1 } (.num 7) 5 "#" 2 5 (by decide)⟩,
   ⟨by decide, claimC1.2.1 { maxDepth := 1 } (.num 7) 5 "#" 0 5 (by decide)⟩,
   claimC1.2.2.2
     { id := 1, category := "struct", path := "#", type := "object",
       fields := some [("a", "object")] } (by decide)⟩

/-! ### Claim C7 — array sampling bounds histogram, walk and relationships -/

/-- C7: an array node's walk is unchanged by dropping the elements beyond the
first `maxArraySample` (they are never walked and emit nothing); the emitted
array VO's `elementTypes` histogram covers exactly the sampled prefix; the
relationships emanating from the array node are exactly
`min maxArraySample length` element edges carrying indices 0 upward, in
order; concretely `maxArraySample = 2` on `[1,2,3,4]` yields an array VO
with `elementTypes = {number: 2}` and exactly two element relationships with
indices 0 and 1. -/
theorem claimC7 :
    (∀ (cfg : VirtualObjectExcavator) (xs : List JValue) (id : Nat) (path : String)
        (depth ctr : Nat),
        walkValue cfg (.arr (xs.take cfg.maxArraySample)) id path depth ctr
          = walkValue cfg (.arr xs) id path depth ctr)
    ∧ (∀ (cfg : VirtualObjectExcavator) (xs : List JValue) (id : Nat) (path : String)
        (depth ctr : Nat),
        depth ≤ cfg.maxDepth →
          ((walkValue cfg (.arr xs) id path depth ctr).1.head?.map fun vo => vo.elementTypes)
            = some (some (elementTypesOf (xs.take cfg.maxArraySample))))
    ∧ (∀ (cfg : VirtualObjectExcavator) (xs : List JValue) (id : Nat) (path : String)
        (depth ctr : Nat),
        depth ≤ cfg.maxDepth → id ≤ ctr →
          (((walkValue cfg (.arr xs) id path depth ctr).2.1.filter
              fun r => r.fromId == id).map fun r => (r.kind, r.index))
            = (List.range (min cfg.maxArraySample xs.length)).map fun i => ("element", some i))
    ∧ (excavate { maxArraySample := 2 } arrayInput 0
        = ({ virtualObjects :=
               [{ id := 1, category := "struct", path := "#", type := "array",
                  elementTypes := some [("number", 2)] },
                { id := 2, category := "value", path := "#[0]", type := "number",
                  valuePreview := some (.pnum 1) },
                { id := 3, category := "value", path := "#[1]", type := "number",
                  valuePreview := some (.pnum 2) }],
             relationships :=
               [{ fromId := 1, toId := 2, kind := "element", index := some 0 },
                { fromId := 1, toId := 3, kind := "element", index := some 1 }],
             domSheets := some [] }, 3)) := by
  refine ⟨?_, ?_, ?_, by decide⟩
  · intro cfg xs id path depth ctr
    simp only [walkValue, List.take_take, min_self, walkElems_take]
  · intro cfg xs id path depth ctr h
    simp only [walkValue]
    rw [if_neg (by omega)]
    simp
  · intro cfg xs id path depth ctr h hid
    simp only [walkValue]
    rw [if_neg (by omega)]
    rw [walkElems_element_rels cfg xs cfg.maxArraySample id path depth 0 ctr hid,
      List.range_eq_range']

/-- C7 witness: the histogram and relationship clauses of `claimC7` applied
to `[1,2,3,4]` with `maxArraySample = 2` at the root position. -/
theorem claimC7_wit :
    ((0 : Nat) ≤ (6 : Nat) ∧
      ((walkValue { maxArraySample := 2 } (.arr [.num 1, .num 2, .num 3, .num 4])
          1 "#" 0 1).1.head?.map fun vo => vo.elementTypes)
        = some (some (elementTypesOf ([JValue.num 1, .num 2, .num 3, .num 4].take 2))))
    ∧ ((1 : Nat) ≤ (1 : Nat) ∧
        (((walkValue { maxArraySample := 2 } (.arr [.num 1, .num 2, .num 3, .num 4])
            1 "#" 0 1).2.1.filter fun r => r.fromId == 1).map fun r => (r.kind, r.index))
          = (List.range (min 2 4)).map fun i => ("element", some i)) :=
  ⟨⟨by decide, claimC7.2.1 { maxArraySample := 2 } [.num 1, .num 2, .num 3, .num 4]
      1 "#" 0 1 (by decide)⟩,
   ⟨by decide, claimC7.2.2.1 { maxArraySample := 2 } [.num 1, .num 2, .num 3, .num 4]
      1 "#" 0 1 (by decide) (by decide)⟩⟩

/-! ### Claim C10 — a top-level "value" key is unwrapped before the walk -/

/-- C10: when the input object owns a `"value"` property, `excavate` walks
`input.value` instead of the input object itself, so the wrapper emits no
struct VO; concretely `excavate {"value": 5}` yields a single
`category = "value"` virtual object for `5` and nothing else. -/
theorem claimC10 :
    (∀ (cfg : VirtualObjectExcavator) (fs : List (String × JValue)) (v : JValue) (ctr : Nat),
        List.lookup "value" fs = some v →
          excavate cfg (.obj fs) ctr
            = ({ virtualObjects := (walkValue cfg v (ctr + 1) "#" 0 (ctr + 1)).1,
                 relationships := (walkValue cfg v (ctr + 1) "#" 0 (ctr + 1)).2.1,
                 domSheets := some [] }, (walkValue cfg v (ctr + 1) "#" 0 (ctr + 1)).2.2))
    ∧ excavate {} (.obj [("value", .num 5)]) 0
        = ({ virtualObjects := [{ id := 1, category := "value", path := "#", type := "number",
                                  valuePreview := some (.pnum 5) }],
             relationships := [], domSheets := some [] }, 1) := by
  refine ⟨?_, by decide⟩
  intro cfg fs v ctr h
  simp [excavate, rootOf, h]

/-- C10 witness: `claimC10` applied to a wrapper object whose `"value"` entry
holds `true`. -/
theorem claimC10_wit :
    List.lookup "value" [("value", JValue.bool true)] = some (JValue.bool true) ∧
    excavate {} (.obj [("value", .bool true)]) 0
      = ({ virtualObjects := (walkValue {} (.bool true) 1 "#" 0 1).1,
           relationships := (walkValue {} (.bool true) 1 "#" 0 1).2.1,
           domSheets := some [] }, (walkValue {} (.bool true) 1 "#" 0 1).2.2) :=
  ⟨rfl, claimC10.1 {} [("value", .bool true)] (.bool true) 0 rfl⟩


/-! ### Score-engine lemmas -/

theorem clamp01_bounds (x : ℚ) : 0 ≤ max 0 (min 1 x) ∧ max 0 (min 1 x) ≤ 1 :=
  ⟨le_max_left 0 _, max_le (by norm_num) (min_le_left 1 x)⟩

theorem computeStability_bounds (hist : List Int) :
    0 ≤ computeStability hist ∧ computeStability hist ≤ 1 := by
  unfold computeStability
  split
  · norm_num
  · exact clamp01_bounds _

theorem computeNovelty_bounds (now : Int) (hist : List Int) :
    0 ≤ computeNovelty now hist ∧ computeNovelty now hist ≤ 1 := by
  unfold computeNovelty
  split
  · norm_num
  · split
    · norm_num
    · exact clamp01_bounds _

theorem scoreFold_acc (now : Int) (l : List VirtualObject) :
    ∀ (e : VirtualObjectScoreEngine) (a : List Score),
      (l.foldl (fun acc vo =>
          let p := scoreOne acc.1 now vo
          (p.1, acc.2 ++ [p.2])) (e, a)).2
        = a ++ (l.foldl (fun acc vo =>
            let p := scoreOne acc.1 now vo
            (p.1, acc.2 ++ [p.2])) (e, [])).2 := by
  induction l with
  | nil => intro e a; simp
  | cons vo rest ih =>
      intro e a
      simp only [List.foldl_cons]
      rw [ih ((scoreOne e now vo).1) (a ++ [(scoreOne e now vo).2]),
        ih ((scoreOne e now vo).1) ([] ++ [(scoreOne e now vo).2])]
      simp

theorem scoreSnapshot_head (eng : VirtualObjectScoreEngine) (now : Int)
    (snap : Snapshot) (vo : VirtualObject) (rest : List VirtualObject)
    (hvos : snap.result.virtualObjects = vo :: rest) :
    (scoreSnapshot eng now snap).2.head? = some (scoreOne eng now vo).2 := by
  unfold scoreSnapshot
  rw [hvos]
  simp only [List.foldl_cons]
  rw [scoreFold_acc now rest ((scoreOne eng now vo).1) ([] ++ [(scoreOne eng now vo).2])]
  simp

theorem scoreFold_bounds (now : Int) (l : List VirtualObject) :
    ∀ (e : VirtualObjectScoreEngine) (a : List Score),
      (∀ sc ∈ a, 0 ≤ sc.stability ∧ sc.stability ≤ 1 ∧ 0 ≤ sc.novelty ∧ sc.novelty ≤ 1) →
      ∀ sc ∈ (l.foldl (fun acc vo =>
          let p := scoreOne acc.1 now vo
          (p.1, acc.2 ++ [p.2])) (e, a)).2,
        0 ≤ sc.stability ∧ sc.stability ≤ 1 ∧ 0 ≤ sc.novelty ∧ sc.novelty ≤ 1 := by
  induction l with
  | nil => intro e a ha; simpa using ha
  | cons vo rest ih =>
      intro e a ha
      simp only [List.foldl_cons]
      apply ih
      intro sc hsc
      rw [List.mem_append] at hsc
      rcases hsc with h | h
      · exact ha sc h
      · rw [List.mem_singleton] at h
        subst h
        exact ⟨(computeStability_bounds _).1, (computeStability_bounds _).2,
          (computeNovelty_bounds _ _).1, (computeNovelty_bounds _ _).2⟩

/-! ### Claim C5 — the empty-history novelty branch is reachable -/

/-- C5 counterexample: the claim asserts the empty-history novelty branch is
unreachable in normal flow — that every virtual object scored via
`scoreSnapshot` sees a non-empty identity-key history when novelty is
computed.  But a fresh engine scoring its very first virtual object
(`testVo` inside `testSnap`) computes novelty against the empty history
(nothing precedes the pre-append read), and the returned novelty is the
empty-branch value 0.5. -/
theorem claimC5_cex :
    getHistory ({} : VirtualObjectScoreEngine) (makeKey testVo) = [] ∧
    computeNovelty 0 [] = 1 / 2 ∧
    ((scoreSnapshot ({} : VirtualObjectScoreEngine) 0 testSnap).2.map fun sc => sc.novelty)
      = [1 / 2] :=
  ⟨rfl, rfl, rfl⟩

/-- C5 (amended): the empty-history branch is reachable in normal flow — the
history of a virtual object's identity key is empty at the moment novelty is
computed whenever the key has no prior recorded observation (in particular
for the first virtual object of any key on a fresh engine), and
`scoreSnapshot` then returns novelty 0.5 for it; the history is non-empty at
that moment only for keys with at least one earlier observation. -/
theorem claimC5 :
    (∀ (eng : VirtualObjectScoreEngine) (now : Int) (vo : VirtualObject),
        getHistory eng (makeKey vo) = [] →
          (scoreOne eng now vo).2.novelty = 1 / 2)
    ∧ (∀ (eng : VirtualObjectScoreEngine) (now : Int) (snap : Snapshot)
        (vo : VirtualObject) (rest : List VirtualObject),
        snap.result.virtualObjects = vo :: rest →
        getHistory eng (makeKey vo) = [] →
          ((scoreSnapshot eng now snap).2.head?.map fun sc => sc.novelty)
            = some (1 / 2)) := by
  constructor
  · intro eng now vo h
    show computeNovelty now (getHistory eng (makeKey vo)) = 1 / 2
    rw [h]
    simp [computeNovelty]
  · intro eng now snap vo rest hvos h
    rw [scoreSnapshot_head eng now snap vo rest hvos]
    have hnv : (scoreOne eng now vo).2.novelty = 1 / 2 := by
      show computeNovelty now (getHistory eng (makeKey vo)) = 1 / 2
      rw [h]
      simp [computeNovelty]
    simp [hnv]

/-- C5 witness: `claimC5` applied to a fresh engine and the one-object
snapshot `testSnap`. -/
theorem claimC5_wit :
    (getHistory ({} : VirtualObjectScoreEngine) (makeKey testVo) = [] ∧
      (scoreOne ({} : VirtualObjectScoreEngine) 0 testVo).2.novelty = 1 / 2)
    ∧ (testSnap.result.virtualObjects = testVo :: [] ∧
        ((scoreSnapshot ({} : VirtualObjectScoreEngine) 0 testSnap).2.head?.map
            fun sc => sc.novelty) = some (1 / 2)) :=
  ⟨⟨by decide, claimC5.1 {} 0 testVo (by decide)⟩,
   ⟨by decide, claimC5.2 {} 0 testSnap testVo [] (by decide) (by decide)⟩⟩

/-! ### Claim C6 — stability and novelty always land in [0,1] -/

/-- C6: every score returned by `scoreSnapshot` has stability and novelty in
the closed interval [0,1], whatever the engine's recorded histories (any
number of observations, with any timestamp values). -/
theorem claimC6 (eng : VirtualObjectScoreEngine) (now : Int) (snap : Snapshot) :
    ∀ sc ∈ (scoreSnapshot eng now snap).2,
      0 ≤ sc.stability ∧ sc.stability ≤ 1 ∧ 0 ≤ sc.novelty ∧ sc.novelty ≤ 1 := by
  unfold scoreSnapshot
  exact scoreFold_bounds now snap.result.virtualObjects eng [] (by simp)

/-- C6 witness: `claimC6` applied to the concrete score that a fresh engine
produces for `testSnap`. -/
theorem claimC6_wit :
    testScore ∈ (scoreSnapshot ({} : VirtualObjectScoreEngine) 0 testSnap).2 ∧
    (0 ≤ testScore.stability ∧ testScore.stability ≤ 1 ∧
      0 ≤ testScore.novelty ∧ testScore.novelty ≤ 1) := by
  have hmem : testScore ∈ (scoreSnapshot ({} : VirtualObjectScoreEngine) 0 testSnap).2 := by
    rw [show (scoreSnapshot ({} : VirtualObjectScoreEngine) 0 testSnap).2 = [testScore] from rfl]
    exact List.mem_singleton.mpr rfl
  exact ⟨hmem, claimC6 {} 0 testSnap testScore hmem⟩

/-! ### Multi-pass lemmas -/

theorem deepLoop_fst_map {σ α β γ : Type} (input : α) (deepFn : α → γ → σ → β × σ)
    (l : List γ) :
    ∀ (acc : List (γ × β)) (s : σ),
      (deepLoop input deepFn l acc s).1.map Prod.fst = acc.map Prod.fst ++ l := by
  induction l with
  | nil => intro acc s; simp [deepLoop]
  | cons g rest ih =>
      intro acc s
      simp only [deepLoop]
      rw [ih]
      simp

theorem deepLoop_pure_count {α β γ : Type} (input : α) (d : α → γ → β) (l : List γ) :
    ∀ (acc : List (γ × β)) (c : Nat × Nat),
      deepLoop input (fun a g (c : Nat × Nat) => (d a g, (c.1, c.2 + 1))) l acc c
        = (acc ++ l.map fun g => (g, d input g), (c.1, c.2 + l.length)) := by
  induction l with
  | nil => intro acc c; simp [deepLoop]
  | cons g rest ih =>
      intro acc c
      simp only [deepLoop]
      rw [ih]
      simp only [List.map_cons, List.append_assoc, List.singleton_append,
        List.length_cons, Prod.mk.injEq]
      refine ⟨trivial, trivial, by omega⟩

/-! ### Claim C8 — multi-pass protocol: one shallow pass, capped deep passes -/

/-- C8: `run` returns the shallow result unchanged; `deepResults` pairs, in
selector output order, exactly the first `maxDeepRegions` regions (later
regions silently dropped, so its length is `min maxDeepRegions n` for a
selector returning `n` regions) with the deep-pass outputs; without a
region selector `deepResults` is empty; with call-counting instrumentation
the shallow pass runs exactly once and the deep pass exactly
`min maxDeepRegions n` times, each retained region paired with
`deepFn(input, region)`; concretely `maxDeepRegions = 1` against a selector
returning 3 regions keeps exactly the first. -/
theorem claimC8 :
    (∀ (σ α β γ : Type) (eng : MultiPassEngine) (input : α)
        (shallowFn : α → σ → β × σ) (deepFn : α → γ → σ → β × σ)
        (sel : β → σ → List γ × σ) (s0 : σ),
        (MultiPassEngine.run eng input shallowFn deepFn (some sel) s0).1.1
            = (shallowFn input s0).1
        ∧ ((MultiPassEngine.run eng input shallowFn deepFn (some sel) s0).1.2.map Prod.fst)
            = (sel (shallowFn input s0).1 (shallowFn input s0).2).1.take eng.maxDeepRegions
        ∧ (MultiPassEngine.run eng input shallowFn deepFn (some sel) s0).1.2.length
            = min eng.maxDeepRegions (sel (shallowFn input s0).1 (shallowFn input s0).2).1.length)
    ∧ (∀ (σ α β γ : Type) (eng : MultiPassEngine) (input : α)
        (shallowFn : α → σ → β × σ) (deepFn : α → γ → σ → β × σ) (s0 : σ),
        MultiPassEngine.run eng input shallowFn deepFn
            (none : Option (β → σ → List γ × σ)) s0
          = (((shallowFn input s0).1, []), (shallowFn input s0).2))
    ∧ (∀ (α β γ : Type) (eng : MultiPassEngine) (input : α) (f : α → β)
        (d : α → γ → β) (sel : β → List γ) (c0 : Nat × Nat),
        MultiPassEngine.run eng input (fun a c => (f a, (c.1 + 1, c.2)))
            (fun a g (c : Nat × Nat) => (d a g, (c.1, c.2 + 1)))
            (some fun b c => (sel b, c)) c0
          = ((f input, ((sel (f input)).take eng.maxDeepRegions).map fun g => (g, d input g)),
             (c0.1 + 1, c0.2 + min eng.maxDeepRegions (sel (f input)).length)))
    ∧ (MultiPassEngine.run { maxDeepRegions := 1 } (100 : Nat)
          (fun a (_ : Unit) => (a, ()))
          (fun a g _ => (a + g, ()))
          (some fun b _ => ([b + 1, b + 2, b + 3], ())) ()
        = ((100, [(101, 201)]), ())) := by
  refine ⟨?_, ?_, ?_, by decide⟩
  · intro σ α β γ eng input shallowFn deepFn sel s0
    refine ⟨rfl, ?_, ?_⟩
    · simp only [MultiPassEngine.run]
      rw [deepLoop_fst_map]
      simp
    · have hmap : ((MultiPassEngine.run eng input shallowFn deepFn (some sel) s0).1.2.map
          Prod.fst).length
          = ((sel (shallowFn input s0).1 (shallowFn input s0).2).1.take
              eng.maxDeepRegions).length := by
        congr 1
        simp only [MultiPassEngine.run]
        rw [deepLoop_fst_map]
        simp
      rw [List.length_map, List.length_take] at hmap
      exact hmap
  · intro σ α β γ eng input shallowFn deepFn s0
    simp [MultiPassEngine.run, deepLoop]
  · intro α β γ eng input f d sel c0
    simp only [MultiPassEngine.run]
    rw [deepLoop_pure_count]
    simp [List.length_take]

end Javaspectre
